import Mathlib

/-!
# Lilium update kernels

A shallow embedding of the three per-frame kernels of `src/game/wasm`:

* `fast_grass_update_wind` and `fast_grass_update_velocity_displacement`
  (`fast_grass_update.c`),
* `update` (`air_particles.c`),

together with the two macros of `lilium.h` they use.

## Conventions of the embedding

* A buffer reached through a pointer is a total map from element offset (`Int`) to element.
  The pointers are all `restrict`, so every buffer is a map of its own.  A store at an offset
  changes the map at that offset, wherever it lies; whether the offset is inside the block the
  host allocated is a property stated about the offsets, not built into the map.
* `int32_t` values are `Int`, and `a % b` is the truncating remainder `Int.tmod`.  Signed
  overflow is undefined in C; the sums and products are computed exactly.
* `uint8_t` values are `Nat`; a `float` converted to `uint8_t` is reduced modulo `256`.
* `float` values are `CFloat`: NaN, the two infinities, and the finite values.  Finite values
  are carried as exact rationals, so the special values behave as in IEEE-754 while the rounding
  of finite results is not part of the model: `0.01f` is `1/100`, `(float)n` is `n`, and
  `LILIUM_PI * 2.0f` is twice the decimal literal.  A zero divisor is taken as `+0`.
* A loop `for (i = 0; i < n; i++)` is `forLoop body n.toNat`, which runs the body for
  `i = 0, 1, ...` in that order and not at all when `n <= 0`.
-/

namespace Lilium

/-! ## C `float` -/

/-- A C `float`: not-a-number, minus infinity, plus infinity, or a finite value. -/
inductive CFloat where
  | nan : CFloat
  | ninf : CFloat
  | pinf : CFloat
  | fin (q : ℚ) : CFloat
deriving DecidableEq

namespace CFloat

/-- Unary minus. -/
def neg : CFloat → CFloat
  | nan => nan
  | ninf => pinf
  | pinf => ninf
  | fin q => fin (-q)

/-- Addition: `inf + (-inf)` is NaN, NaN propagates. -/
def add : CFloat → CFloat → CFloat
  | nan, _ => nan
  | _, nan => nan
  | pinf, ninf => nan
  | ninf, pinf => nan
  | pinf, _ => pinf
  | ninf, _ => ninf
  | _, pinf => pinf
  | _, ninf => ninf
  | fin a, fin b => fin (a + b)

/-- Subtraction. -/
def sub (x y : CFloat) : CFloat := add x (neg y)

/-- The infinity with the sign of the rational `q`, NaN when `q = 0` (`inf * 0`). -/
def infTimes (positive : Bool) (q : ℚ) : CFloat :=
  if q = 0 then nan
  else if decide (0 < q) = positive then pinf else ninf

/-- Multiplication: `inf * 0` is NaN, NaN propagates. -/
def mul : CFloat → CFloat → CFloat
  | nan, _ => nan
  | _, nan => nan
  | pinf, pinf => pinf
  | pinf, ninf => ninf
  | ninf, pinf => ninf
  | ninf, ninf => pinf
  | pinf, fin b => infTimes true b
  | ninf, fin b => infTimes false b
  | fin a, pinf => infTimes true a
  | fin a, ninf => infTimes false a
  | fin a, fin b => fin (a * b)

/-- Division: `inf / inf` and `0 / 0` are NaN, a nonzero finite value over zero is an
infinity, a finite value over an infinity is zero. -/
def div : CFloat → CFloat → CFloat
  | nan, _ => nan
  | _, nan => nan
  | pinf, pinf => nan
  | pinf, ninf => nan
  | ninf, pinf => nan
  | ninf, ninf => nan
  | pinf, fin b => if b < 0 then ninf else pinf
  | ninf, fin b => if b < 0 then pinf else ninf
  | fin _, pinf => fin 0
  | fin _, ninf => fin 0
  | fin a, fin b =>
    if b = 0 then (if a = 0 then nan else if 0 < a then pinf else ninf)
    else fin (a / b)

/-- The comparison `x < y` of C: false as soon as an operand is NaN. -/
def lt : CFloat → CFloat → Bool
  | nan, _ => false
  | _, nan => false
  | ninf, ninf => false
  | ninf, _ => true
  | pinf, _ => false
  | fin _, ninf => false
  | fin _, pinf => true
  | fin a, fin b => decide (a < b)

/-- The comparison `x > y` of C. -/
def gt (x y : CFloat) : Bool := lt y x

/-- The comparison `x <= y` of C: false as soon as an operand is NaN. -/
def le : CFloat → CFloat → Bool
  | nan, _ => false
  | _, nan => false
  | ninf, _ => true
  | pinf, pinf => true
  | pinf, _ => false
  | fin _, ninf => false
  | fin _, pinf => true
  | fin a, fin b => decide (a ≤ b)

/-- Conversion `(float)n` of an `int32_t`. -/
def ofInt (n : Int) : CFloat := fin (n : ℚ)

/-- Promotion of a `uint8_t` to `float`. -/
def ofUInt8 (n : Nat) : CFloat := fin (n : ℚ)

/-- Truncation toward zero of a rational. -/
def truncQ (q : ℚ) : Int := Int.tdiv q.num (q.den : Int)

/-- Conversion `(int32_t)x`: truncation toward zero.  C leaves the conversion of NaN and of the
infinities undefined; they convert to `0` here. -/
def toInt32 : CFloat → Int
  | fin q => truncQ q
  | _ => 0

/-- Conversion `(uint8_t)x`: truncation toward zero, kept modulo `256`.  C leaves the conversion
of NaN and of the infinities undefined; they convert to `0` here. -/
def toUInt8 : CFloat → Nat
  | fin q => (truncQ q % 256).toNat
  | _ => 0

end CFloat

/-! ## Buffers and loops -/

/-- The store `buf[k] = v`. -/
def store {α : Type} (buf : Int → α) (k : Int) (v : α) : Int → α :=
  fun n => if n = k then v else buf n

/-- The loop `for (int32_t i = 0; i < n; i++) body`, for a bound already clipped at zero. -/
def forLoop {σ : Type} (body : Int → σ → σ) : Nat → σ → σ
  | 0, s => s
  | n + 1, s => body (n : Int) (forLoop body n s)

/-! ## `lilium.h` -/

/-- `LILIUM_PI`, the literal `3.1415926535897932`. -/
def LILIUM_PI : CFloat := CFloat.fin (31415926535897932 / 10000000000000000)

/-- `LILIUM_CLAMP(a, min, max)`: `(a) < (min) ? (min) : (a) > (max) ? (max) : (a)`. -/
def LILIUM_CLAMP (a min max : CFloat) : CFloat :=
  if CFloat.lt a min then min else if CFloat.gt a max then max else a

/-! ## `fast_grass_update.c`: the displacement painter -/

/-- The locals of `fast_grass_update_velocity_displacement` that the paint loop reads. -/
structure Footprint where
  num_pixels_x : Int
  num_pixels_z : Int
  start_pixel_x : Int
  start_pixel_z : Int
  mid_pixel_x : CFloat
  mid_pixel_z : CFloat

/-- The flag `out_of_bounds_xz || out_of_bounds_y` of
`fast_grass_update_velocity_displacement`. -/
def out_of_bounds (player_x player_y player_z max_dim blade_height : CFloat) : Bool :=
  let frac_loc_x := CFloat.div player_x max_dim
  let frac_loc_z := CFloat.div player_z max_dim
  let out_of_bounds_xz :=
    CFloat.gt frac_loc_x (.fin 1) || CFloat.lt frac_loc_x (.fin 0) ||
    CFloat.gt frac_loc_z (.fin 1) || CFloat.lt frac_loc_z (.fin 0)
  let out_of_bounds_y := CFloat.lt player_y (.fin 0) || CFloat.gt player_y blade_height
  out_of_bounds_xz || out_of_bounds_y

/-- Lines 34-66 of `fast_grass_update.c`: everything before the paint loop. -/
def footprint (texture_size : Int)
    (player_x player_y player_z player_width player_depth scale_x scale_z max_dim
      blade_height : CFloat) : Footprint :=
  let frac_loc_x := CFloat.div player_x max_dim
  let frac_loc_z := CFloat.div player_z max_dim
  let scaled_x := CFloat.div (CFloat.mul player_width scale_x) max_dim
  let scaled_z := CFloat.div (CFloat.mul player_depth scale_z) max_dim
  let frac_width := LILIUM_CLAMP scaled_x (.fin 0) (.fin 1)
  let frac_depth := LILIUM_CLAMP scaled_z (.fin 0) (.fin 1)
  let min_x := CFloat.sub frac_loc_x (CFloat.div frac_width (.fin 2))
  let min_z := CFloat.sub frac_loc_z (CFloat.div frac_depth (.fin 2))
  let min_x := LILIUM_CLAMP min_x (.fin 0) (.fin 1)
  let min_z := LILIUM_CLAMP min_z (.fin 0) (.fin 1)
  let f_texture_size := CFloat.ofInt texture_size
  let num_pixels_x := CFloat.toInt32 (CFloat.mul f_texture_size frac_width)
  let num_pixels_z := CFloat.toInt32 (CFloat.mul f_texture_size frac_depth)
  let start_pixel_x := CFloat.toInt32 (CFloat.mul f_texture_size min_x)
  let start_pixel_z := CFloat.toInt32 (CFloat.mul f_texture_size min_z)
  let mid_pixel_x := CFloat.mul (CFloat.add min_x (CFloat.div frac_width (.fin 2))) f_texture_size
  let mid_pixel_z := CFloat.mul (CFloat.add min_z (CFloat.div frac_depth (.fin 2))) f_texture_size
  let gate := out_of_bounds player_x player_y player_z max_dim blade_height
  { num_pixels_x := if gate then 0 else num_pixels_x
    num_pixels_z := if gate then 0 else num_pixels_z
    start_pixel_x := start_pixel_x
    start_pixel_z := start_pixel_z
    mid_pixel_x := mid_pixel_x
    mid_pixel_z := mid_pixel_z }

/-- The column `index_x` of iteration `i`. -/
def Footprint.index_x (fp : Footprint) (i : Int) : Int := i + fp.start_pixel_x

/-- The row `index_z` of iteration `j`. -/
def Footprint.index_z (fp : Footprint) (j : Int) : Int := j + fp.start_pixel_z

/-- The byte offset `texture_index` of iteration `(i, j)`. -/
def Footprint.texture_index (fp : Footprint) (texture_size i j : Int) : Int :=
  let pixel_index := fp.index_z j * texture_size + fp.index_x i
  pixel_index * 4

/-- The float `direction_x` of iteration `i`. -/
def Footprint.direction_x (fp : Footprint) (i : Int) : CFloat :=
  CFloat.div (CFloat.sub (CFloat.ofInt (fp.index_x i)) fp.mid_pixel_x)
    (CFloat.sub fp.mid_pixel_x (CFloat.ofInt fp.start_pixel_x))

/-- The float `direction_z` of iteration `j`. -/
def Footprint.direction_z (fp : Footprint) (j : Int) : CFloat :=
  CFloat.div (CFloat.sub (CFloat.ofInt (fp.index_z j)) fp.mid_pixel_z)
    (CFloat.sub fp.mid_pixel_z (CFloat.ofInt fp.start_pixel_z))

/-- The body of the paint loop (lines 70-84) at iteration `(i, j)`. -/
def paint_pixel (fp : Footprint) (texture_size i j : Int) (velocity_texture : Int → Nat) :
    Int → Nat :=
  let texture_index := fp.texture_index texture_size i j
  let norm_x := CFloat.mul (CFloat.add (CFloat.neg (fp.direction_x i)) (.fin 1)) (.fin (1 / 2))
  let norm_z := CFloat.mul (CFloat.add (fp.direction_z j) (.fin 1)) (.fin (1 / 2))
  let t0 := store velocity_texture texture_index (CFloat.toUInt8 (CFloat.mul norm_x (.fin 255)))
  let t1 := store t0 (texture_index + 2) (CFloat.toUInt8 (CFloat.mul norm_z (.fin 255)))
  store t1 (texture_index + 3) 100

/-- The paint loop (lines 68-86): `i` outermost, `j` innermost. -/
def paint_loop (fp : Footprint) (texture_size : Int) (velocity_texture : Int → Nat) :
    Int → Nat :=
  forLoop (fun i tex => forLoop (fun j tex => paint_pixel fp texture_size i j tex)
    fp.num_pixels_z.toNat tex) fp.num_pixels_x.toNat velocity_texture

/-- The function `fast_grass_update_velocity_displacement`: the velocity texture after the
call. -/
def fast_grass_update_velocity_displacement (velocity_texture : Int → Nat) (texture_size : Int)
    (player_x player_y player_z player_width player_depth scale_x scale_z max_dim
      blade_height : CFloat) : Int → Nat :=
  paint_loop (footprint texture_size player_x player_y player_z player_width player_depth
    scale_x scale_z max_dim blade_height) texture_size velocity_texture

/-! ## `fast_grass_update.c`: the wind kernel -/

/-- The buffers `fast_grass_update_wind` writes. -/
structure WindBuffers where
  wind_texture : Int → Nat
  velocity_texture : Int → Nat
  noise_indices : Int → Int

/-- The cursor `sample_index = (noise_indices[i] + 1) % num_samples`; the same expression
gives `noise_sample_index` in `air_particles.c`. -/
def sample_index (cursor num_samples : Int) : Int := Int.tmod (cursor + 1) num_samples

/-- The body of the loop of `fast_grass_update_wind` (lines 20-29) at pixel `i`. -/
def wind_pixel (noise : Int → Nat) (num_samples : Int) (vx vz : Nat) (decay_amt : CFloat)
    (i : Int) (b : WindBuffers) : WindBuffers :=
  let sample_index := sample_index (b.noise_indices i) num_samples
  let sample := noise sample_index
  let w0 := store b.wind_texture (i * 4) vx
  let w1 := store w0 (i * 4 + 2) vz
  let w2 := store w1 (i * 4 + 3) sample
  let noise_indices := store b.noise_indices i sample_index
  let decayed := CFloat.toUInt8 (CFloat.div (CFloat.ofUInt8 (b.velocity_texture (i * 4 + 3)))
    decay_amt)
  { wind_texture := w2
    velocity_texture := store b.velocity_texture (i * 4 + 3) decayed
    noise_indices := noise_indices }

/-- The encoding `(uint8_t)((v + 1.0f) * 0.5f * 255.0f)` of a wind component. -/
def encode_wind (v : CFloat) : Nat :=
  CFloat.toUInt8 (CFloat.mul (CFloat.mul (CFloat.add v (.fin 1)) (.fin (1 / 2))) (.fin 255))

/-- The function `fast_grass_update_wind`: the three buffers after the call. -/
def fast_grass_update_wind (b : WindBuffers) (noise : Int → Nat) (num_pixels num_samples : Int)
    (wind_vx wind_vz decay_amt : CFloat) : WindBuffers :=
  let vx := encode_wind wind_vx
  let vz := encode_wind wind_vz
  forLoop (wind_pixel noise num_samples vx vz decay_amt) num_pixels.toNat b

/-! ## `air_particles.c` -/

/-- The buffers `update` writes. -/
structure ParticleBuffers where
  translations : Int → CFloat
  rotations : Int → CFloat
  alphas : Int → CFloat
  alpha_signs : Int → CFloat
  noise_indices : Int → Int

/-- The constant `two_pi = LILIUM_PI * 2.0f`. -/
def two_pi : CFloat := CFloat.mul LILIUM_PI (.fin 2)

/-- The body of the inner loop of `update` (lines 54-60) at component `j` of the particle whose
first component is at `ind3`. -/
def wrap_rotation (ind3 j : Int) (rotations : Int → CFloat) : Int → CFloat :=
  let rot := rotations (ind3 + j)
  if CFloat.gt rot two_pi then store rotations (ind3 + j) (.fin 0)
  else if CFloat.lt rot (CFloat.ofInt 0) then store rotations (ind3 + j) two_pi
  else rotations

/-- The value `half_noise_sample = noise_sample - 0.5f`. -/
def half_noise (noise_sample : CFloat) : CFloat := CFloat.sub noise_sample (.fin (1 / 2))

/-- The right-hand side of `translations[ind3+0] += (half_noise_sample * 0.05f + 0.02f) * norm_x
* dt_factor`, also used for `ind3+2` with `norm_z`. -/
def drift_xz (translation noise_sample norm dt_factor : CFloat) : CFloat :=
  CFloat.add translation
    (CFloat.mul
      (CFloat.mul
        (CFloat.add (CFloat.mul (half_noise noise_sample) (.fin (5 / 100))) (.fin (2 / 100)))
        norm)
      dt_factor)

/-- The right-hand side of `translations[ind3+1] += half_noise_sample * 0.01f * dt_factor`. -/
def drift_y (translation noise_sample dt_factor : CFloat) : CFloat :=
  CFloat.add translation
    (CFloat.mul (CFloat.mul (half_noise noise_sample) (.fin (1 / 100))) dt_factor)

/-- The right-hand side of `alphas[i] += alpha_signs[i] * 0.01f * noise_sample * dt_factor`. -/
def alpha_step (alpha alpha_sign noise_sample dt_factor : CFloat) : CFloat :=
  CFloat.add alpha
    (CFloat.mul (CFloat.mul (CFloat.mul alpha_sign (.fin (1 / 100))) noise_sample) dt_factor)

/-- The increment `0.01f * noise_sample * 2.0f * dt_factor` of `rotations[ind3]`. -/
def rotation_increment_x (noise_sample dt_factor : CFloat) : CFloat :=
  CFloat.mul (CFloat.mul (CFloat.mul (.fin (1 / 100)) noise_sample) (.fin 2)) dt_factor

/-- The increment `0.005f * half_noise_sample * dt_factor` of `rotations[ind3+1]`. -/
def rotation_increment_y (noise_sample dt_factor : CFloat) : CFloat :=
  CFloat.mul (CFloat.mul (.fin (5 / 1000)) (half_noise noise_sample)) dt_factor

/-- The body of the loop of `update` (lines 23-61) at particle `i`. -/
def update_particle (offsets noise : Int → CFloat) (num_noise_samples : Int)
    (norm_x norm_z dt_factor player_x player_y player_z : CFloat) (i : Int)
    (b : ParticleBuffers) : ParticleBuffers :=
  let noise_sample_index := sample_index (b.noise_indices i) num_noise_samples
  let ind3 := i * 3
  let noise_indices := store b.noise_indices i noise_sample_index
  let noise_sample := noise noise_sample_index
  let t0 := store b.translations (ind3 + 0)
    (drift_xz (b.translations (ind3 + 0)) noise_sample norm_x dt_factor)
  let t1 := store t0 (ind3 + 1) (drift_y (t0 (ind3 + 1)) noise_sample dt_factor)
  let t2 := store t1 (ind3 + 2) (drift_xz (t1 (ind3 + 2)) noise_sample norm_z dt_factor)
  let a0 := store b.alphas i
    (alpha_step (b.alphas i) (b.alpha_signs i) noise_sample dt_factor)
  let respawn := CFloat.lt (a0 i) (.fin 0)
  let saturate := CFloat.gt (a0 i) (.fin 1)
  let alphas :=
    if respawn then store a0 i (.fin 0) else if saturate then store a0 i (.fin 1) else a0
  let alpha_signs :=
    if respawn then store b.alpha_signs i (.fin 1)
    else if saturate then store b.alpha_signs i (.fin (-1)) else b.alpha_signs
  let translations :=
    if respawn then
      store
        (store (store t2 (ind3 + 0) (CFloat.add (offsets ind3) player_x)) (ind3 + 1)
          (CFloat.add (offsets (ind3 + 1)) player_y))
        (ind3 + 2) (CFloat.add (offsets (ind3 + 2)) player_z)
    else t2
  let r0 := store b.rotations ind3
    (CFloat.add (b.rotations ind3) (rotation_increment_x noise_sample dt_factor))
  let r1 := store r0 (ind3 + 1)
    (CFloat.add (r0 (ind3 + 1)) (rotation_increment_y noise_sample dt_factor))
  { translations := translations
    rotations := forLoop (wrap_rotation ind3) 3 r1
    alphas := alphas
    alpha_signs := alpha_signs
    noise_indices := noise_indices }

/-- The function `update`: the five buffers after the call. -/
def update (b : ParticleBuffers) (offsets : Int → CFloat) (num_particles : Int)
    (noise : Int → CFloat) (num_noise_samples : Int) (norm_x norm_z dt_factor : CFloat)
    (player_position : Int → CFloat) : ParticleBuffers :=
  let player_x := player_position 0
  let player_y := player_position 1
  let player_z := player_position 2
  forLoop (update_particle offsets noise num_noise_samples norm_x norm_z dt_factor
    player_x player_y player_z) num_particles.toNat b

/-! ## Views used to state the results -/

/-- The part of the three wind buffers that belongs to pixel `i`: its cursor, its four wind
bytes and its four velocity bytes. -/
def wind_slot (i : Int) (b : WindBuffers) :
    Int × (Nat × Nat × Nat × Nat) × (Nat × Nat × Nat × Nat) :=
  (b.noise_indices i,
    (b.wind_texture (i * 4), b.wind_texture (i * 4 + 1), b.wind_texture (i * 4 + 2),
      b.wind_texture (i * 4 + 3)),
    (b.velocity_texture (i * 4), b.velocity_texture (i * 4 + 1), b.velocity_texture (i * 4 + 2),
      b.velocity_texture (i * 4 + 3)))

/-- The part of the five particle buffers that belongs to particle `i`. -/
def particle_slot (i : Int) (b : ParticleBuffers) :
    Int × (CFloat × CFloat) × (CFloat × CFloat × CFloat) × (CFloat × CFloat × CFloat) :=
  (b.noise_indices i, (b.alphas i, b.alpha_signs i),
    (b.translations (i * 3 + 0), b.translations (i * 3 + 1), b.translations (i * 3 + 2)),
    (b.rotations (i * 3 + 0), b.rotations (i * 3 + 1), b.rotations (i * 3 + 2)))

/-- What the three tests of lines 56-60 leave in a rotation component that holds `rot`. -/
def wrap_angle (rot : CFloat) : CFloat :=
  if CFloat.gt rot two_pi then .fin 0
  else if CFloat.lt rot (CFloat.ofInt 0) then two_pi
  else rot

/-- The buffers after `k` successive calls of `fast_grass_update_wind`.  Call number `c`
(counted from zero) receives the noise buffer `noise c` and the scalars `wind_vx c`, `wind_vz c`
and `decay_amt c`; `num_pixels` and `num_samples` are the same in every call. -/
def wind_calls (noise : Nat → Int → Nat) (num_pixels num_samples : Int)
    (wind_vx wind_vz decay_amt : Nat → CFloat) : Nat → WindBuffers → WindBuffers
  | 0, b => b
  | k + 1, b =>
    fast_grass_update_wind (wind_calls noise num_pixels num_samples wind_vx wind_vz decay_amt k b)
      (noise k) num_pixels num_samples (wind_vx k) (wind_vz k) (decay_amt k)

/-- A texture transformer that, at every offset, either keeps the byte it finds or stores a
byte that does not depend on the texture it is given. -/
def Overwrites (paint : (Int → Nat) → Int → Nat) : Prop :=
  ∀ k : Int, (∀ tex, paint tex k = tex k) ∨ ∃ v : Nat, ∀ tex, paint tex k = v

/-- The float `norm_x = (-direction_x + 1.0f) * 0.5f` of iteration `i`. -/
def Footprint.norm_x (fp : Footprint) (i : Int) : CFloat :=
  CFloat.mul (CFloat.add (CFloat.neg (fp.direction_x i)) (.fin 1)) (.fin (1 / 2))

/-- The float `norm_z = (direction_z + 1.0f) * 0.5f` of iteration `j`. -/
def Footprint.norm_z (fp : Footprint) (j : Int) : CFloat :=
  CFloat.mul (CFloat.add (fp.direction_z j) (.fin 1)) (.fin (1 / 2))

/-! ## Basic facts -/

theorem store_same {α : Type} (buf : Int → α) (k : Int) (v : α) : store buf k v k = v := by
  simp [store]

theorem store_other {α : Type} (buf : Int → α) (k n : Int) (v : α) (h : n ≠ k) :
    store buf k v n = buf n := by
  simp [store, h]

/-- C1 (fails on the code). The painter is called on a 4 x 4 texture (64 bytes, all zero) with
`player_x = player_z = 3`, `max_dim = 4`, `player_width = player_depth = 4`, both scales `1`,
`player_y = 0` and `blade_height = 1`.  The gate lets the call through, the footprint is 4
columns wide and starts at column 1, so the last column painted is `index_x = 4`, outside
`[0, 4)`; the pixel `(index_x, index_z) = (4, 1)` is written at byte offset 32, which is
column 0 of row 2; and byte 83, past the end of the texture, receives the magnitude `100`. -/
theorem painter_escapes_texture :
    out_of_bounds (.fin 3) (.fin 0) (.fin 3) (.fin 4) (.fin 1) = false ∧
    (footprint 4 (.fin 3) (.fin 0) (.fin 3) (.fin 4) (.fin 4) (.fin 1) (.fin 1) (.fin 4)
      (.fin 1)).num_pixels_x = 4 ∧
    (footprint 4 (.fin 3) (.fin 0) (.fin 3) (.fin 4) (.fin 4) (.fin 1) (.fin 1) (.fin 4)
      (.fin 1)).index_x 3 = 4 ∧
    (footprint 4 (.fin 3) (.fin 0) (.fin 3) (.fin 4) (.fin 4) (.fin 1) (.fin 1) (.fin 4)
      (.fin 1)).index_z 0 = 1 ∧
    (footprint 4 (.fin 3) (.fin 0) (.fin 3) (.fin 4) (.fin 4) (.fin 1) (.fin 1) (.fin 4)
      (.fin 1)).texture_index 4 3 0 = (2 * 4 + 0) * 4 ∧
    fast_grass_update_velocity_displacement (fun _ => 0) 4 (.fin 3) (.fin 0) (.fin 3)
      (.fin 4) (.fin 4) (.fin 1) (.fin 1) (.fin 4) (.fin 1) 83 = 100 := by
  decide!

namespace CFloat

theorem mul_one (x : CFloat) : mul x (fin 1) = x := by
  cases x <;> simp [mul, infTimes]

theorem truncQ_intCast (n : Int) : truncQ (n : ℚ) = n := by
  simp [truncQ]

theorem lt_eq_false_of_le (x y : CFloat) (h : le x y = true) : lt y x = false := by
  cases x <;> cases y <;> simp_all [le, lt]

end CFloat

/-- An iteration of the paint loop leaves the magnitude `100` in the alpha byte of its pixel. -/
theorem paint_pixel_alpha (fp : Footprint) (texture_size i j : Int) (tex : Int → Nat) :
    paint_pixel fp texture_size i j tex (fp.texture_index texture_size i j + 3) = 100 := by
  simp [paint_pixel, store]

/-- An iteration of the paint loop keeps every alpha byte that already holds `100`. -/
theorem paint_pixel_keeps_alpha (fp : Footprint) (texture_size i j q : Int) (tex : Int → Nat)
    (h : tex (q * 4 + 3) = 100) : paint_pixel fp texture_size i j tex (q * 4 + 3) = 100 := by
  simp only [paint_pixel, store, Footprint.texture_index]
  split_ifs with h1 h2 h3
  · rfl
  · omega
  · omega
  · exact h

theorem paint_row_keeps_alpha (fp : Footprint) (texture_size i q : Int) (n : Nat)
    (tex : Int → Nat) (h : tex (q * 4 + 3) = 100) :
    forLoop (fun j tex => paint_pixel fp texture_size i j tex) n tex (q * 4 + 3) = 100 := by
  induction n with
  | zero => exact h
  | succ n ih => exact paint_pixel_keeps_alpha fp texture_size i n q _ ih

theorem paint_row_alpha (fp : Footprint) (texture_size i : Int) (n j : Nat) (tex : Int → Nat)
    (hj : j < n) :
    forLoop (fun j tex => paint_pixel fp texture_size i j tex) n tex
      (fp.texture_index texture_size i j + 3) = 100 := by
  induction n with
  | zero => omega
  | succ n ih =>
    rcases Nat.lt_succ_iff_lt_or_eq.mp hj with h | h
    · exact paint_pixel_keeps_alpha fp texture_size i n _ _ (ih h)
    · subst h
      exact paint_pixel_alpha fp texture_size i j _

/-- Every pixel of the rectangle the loop walks ends with alpha `100`. -/
theorem paint_loop_alpha (fp : Footprint) (texture_size : Int) (tex : Int → Nat) (i j : Nat)
    (hi : (i : Int) < fp.num_pixels_x) (hj : (j : Int) < fp.num_pixels_z) :
    paint_loop fp texture_size tex (fp.texture_index texture_size i j + 3) = 100 := by
  have hi' : i < fp.num_pixels_x.toNat := by omega
  have hj' : j < fp.num_pixels_z.toNat := by omega
  unfold paint_loop
  generalize fp.num_pixels_x.toNat = nx at hi'
  induction nx with
  | zero => omega
  | succ n ih =>
    rcases Nat.lt_succ_iff_lt_or_eq.mp hi' with h | h
    · exact paint_row_keeps_alpha fp texture_size n _ _ _ (ih h)
    · subst h
      exact paint_row_alpha fp texture_size i _ j _ hj'

/-- The footprint of a centered player whose extent is the whole texture: the rectangle starts
at pixel `(0, 0)` and has `texture_size` columns and rows. -/
theorem footprint_full (texture_size : Int)
    (player_x player_y player_z player_width player_depth max_dim blade_height : CFloat)
    (hx : CFloat.div player_x max_dim = .fin (1 / 2))
    (hz : CFloat.div player_z max_dim = .fin (1 / 2))
    (hw : CFloat.div player_width max_dim = .fin 1)
    (hd : CFloat.div player_depth max_dim = .fin 1)
    (hy0 : CFloat.le (.fin 0) player_y = true) (hy1 : CFloat.le player_y blade_height = true) :
    let fp := footprint texture_size player_x player_y player_z player_width player_depth
      (.fin 1) (.fin 1) max_dim blade_height
    fp.num_pixels_x = texture_size ∧ fp.num_pixels_z = texture_size ∧
      fp.start_pixel_x = 0 ∧ fp.start_pixel_z = 0 := by
  have hg : out_of_bounds player_x player_y player_z max_dim blade_height = false := by
    have h1 := CFloat.lt_eq_false_of_le _ _ hy0
    have h2 := CFloat.lt_eq_false_of_le _ _ hy1
    have h3 : CFloat.lt (.fin 1) (.fin (1 / 2)) = false := by decide!
    have h4 : CFloat.lt (.fin (1 / 2)) (.fin 0) = false := by decide!
    simp only [out_of_bounds, hx, hz, CFloat.gt, h1, h2, h3, h4, Bool.or_self]
  have hc1 : LILIUM_CLAMP (.fin 1) (.fin 0) (.fin 1) = .fin 1 := by decide!
  have hc0 : LILIUM_CLAMP (CFloat.sub (.fin (1 / 2)) (CFloat.div (.fin 1) (.fin 2))) (.fin 0)
      (.fin 1) = .fin 0 := by decide!
  simp only [footprint, CFloat.mul_one, hx, hz, hw, hd, hg, hc1, hc0]
  simp [CFloat.ofInt, CFloat.mul, CFloat.toInt32, CFloat.truncQ_intCast]
  simp [CFloat.truncQ]

/-- C3. For every `texture_size >= 1`, a player with `player_x / max_dim = player_z / max_dim =
0.5`, `player_y` in `[0, blade_height]`, both scales `1` and `player_width / max_dim =
player_depth / max_dim = 1` leaves `velocity_texture[4p+3] = 100` for every pixel
`p` in `[0, texture_size * texture_size)`. -/
theorem painter_full_coverage (velocity_texture : Int → Nat) (texture_size : Int)
    (player_x player_y player_z player_width player_depth max_dim blade_height : CFloat)
    (hts : 1 ≤ texture_size)
    (hx : CFloat.div player_x max_dim = .fin (1 / 2))
    (hz : CFloat.div player_z max_dim = .fin (1 / 2))
    (hw : CFloat.div player_width max_dim = .fin 1)
    (hd : CFloat.div player_depth max_dim = .fin 1)
    (hy0 : CFloat.le (.fin 0) player_y = true) (hy1 : CFloat.le player_y blade_height = true)
    (p : Int) (hp0 : 0 ≤ p) (hp1 : p < texture_size * texture_size) :
    fast_grass_update_velocity_displacement velocity_texture texture_size player_x player_y
      player_z player_width player_depth (.fin 1) (.fin 1) max_dim blade_height (4 * p + 3) =
      100 := by
  obtain ⟨hnx, hnz, hsx, hsz⟩ := footprint_full texture_size player_x player_y player_z
    player_width player_depth max_dim blade_height hx hz hw hd hy0 hy1
  have hpos : 0 < texture_size := by omega
  have hi0 : 0 ≤ p % texture_size := Int.emod_nonneg _ (by omega)
  have hi1 : p % texture_size < texture_size := Int.emod_lt_of_pos _ hpos
  have hj0 : 0 ≤ p / texture_size := Int.ediv_nonneg hp0 (by omega)
  have hj1 : p / texture_size < texture_size := Int.ediv_lt_of_lt_mul hpos hp1
  have key := paint_loop_alpha (footprint texture_size player_x player_y player_z player_width
    player_depth (.fin 1) (.fin 1) max_dim blade_height) texture_size velocity_texture
    (p % texture_size).toNat (p / texture_size).toNat (by rw [hnx]; omega) (by rw [hnz]; omega)
  have hidx : (footprint texture_size player_x player_y player_z player_width
      player_depth (.fin 1) (.fin 1) max_dim blade_height).texture_index texture_size
        ((p % texture_size).toNat : Int) ((p / texture_size).toNat : Int) + 3 = 4 * p + 3 := by
    simp only [Footprint.texture_index, Footprint.index_x, Footprint.index_z, hsx, hsz]
    rw [Int.toNat_of_nonneg hi0, Int.toNat_of_nonneg hj0]
    have := Int.emod_add_ediv p texture_size
    nlinarith [Int.mul_comm texture_size (p / texture_size)]
  rw [hidx] at key
  exact key

/-- C3 on a 2 x 2 texture, at its last pixel. -/
theorem painter_full_coverage_witness :
    fast_grass_update_velocity_displacement (fun _ => 0) 2 (.fin 1) (.fin 0) (.fin 1) (.fin 2)
      (.fin 2) (.fin 1) (.fin 1) (.fin 2) (.fin 1) (4 * 3 + 3) = 100 :=
  painter_full_coverage (fun _ => 0) 2 (.fin 1) (.fin 0) (.fin 1) (.fin 2) (.fin 2) (.fin 2)
    (.fin 1) (by decide) (by decide!) (by decide!) (by decide!) (by decide!) (by decide!)
    (by decide!) 3 (by decide) (by decide)

/-! ## Loops over disjoint slots -/

/-- A view of the state that no iteration changes is unchanged by the loop. -/
theorem forLoop_frame {σ β : Type} (body : Int → σ → σ) (view : σ → β) (n : Nat) (s : σ)
    (h : ∀ (j : Nat) (t : σ), j < n → view (body j t) = view t) :
    view (forLoop body n s) = view s := by
  induction n with
  | zero => rfl
  | succ n ih =>
    show view (body n (forLoop body n s)) = view s
    rw [h n _ (Nat.lt_succ_self n)]
    exact ih (fun j t hj => h j t (Nat.lt_succ_of_lt hj))

/-- A view of the state that only iteration `i` changes, and that iteration `i` computes from
the view alone, is after the loop what iteration `i` makes of the initial state. -/
theorem forLoop_slot {σ β : Type} (body : Int → σ → σ) (view : σ → β) (i n : Nat) (s : σ)
    (hi : i < n)
    (hframe : ∀ (j : Nat) (t : σ), j ≠ i → view (body j t) = view t)
    (hlocal : ∀ t : σ, view t = view s → view (body i t) = view (body i s)) :
    view (forLoop body n s) = view (body i s) := by
  induction n with
  | zero => omega
  | succ n ih =>
    show view (body n (forLoop body n s)) = view (body i s)
    rcases Nat.lt_succ_iff_lt_or_eq.mp hi with h | h
    · rw [hframe n _ (by omega)]
      exact ih h
    · subst h
      exact hlocal _ (forLoop_frame body view i s (fun j t hj => hframe j t (by omega)))

/-! ## The wind kernel -/

theorem wind_pixel_frame (noise : Int → Nat) (num_samples : Int) (vx vz : Nat)
    (decay_amt : CFloat) (i j : Int) (b : WindBuffers) (h : j ≠ i) :
    wind_slot i (wind_pixel noise num_samples vx vz decay_amt j b) = wind_slot i b := by
  simp only [wind_slot, wind_pixel, store, Prod.mk.injEq]
  refine ⟨?_, ⟨?_, ?_, ?_, ?_⟩, ?_, ?_, ?_, ?_⟩ <;> split_ifs <;> first | rfl | omega

theorem wind_pixel_local (noise : Int → Nat) (num_samples : Int) (vx vz : Nat)
    (decay_amt : CFloat) (i : Int) (b t : WindBuffers) (h : wind_slot i t = wind_slot i b) :
    wind_slot i (wind_pixel noise num_samples vx vz decay_amt i t) =
      wind_slot i (wind_pixel noise num_samples vx vz decay_amt i b) := by
  simp only [wind_slot, Prod.mk.injEq] at h
  obtain ⟨h0, ⟨h1, h2, h3, h4⟩, h5, h6, h7, h8⟩ := h
  simp only [wind_slot, wind_pixel, store, Prod.mk.injEq, h0, h1, h2, h3, h4, h5, h6, h7, h8]

/-- After `fast_grass_update_wind`, the slot of every pixel below `num_pixels` is what the loop
body makes of the buffers as they were before the call. -/
theorem fast_grass_update_wind_slot (b : WindBuffers) (noise : Int → Nat)
    (num_pixels num_samples : Int) (wind_vx wind_vz decay_amt : CFloat) (i : Int)
    (h0 : 0 ≤ i) (h1 : i < num_pixels) :
    wind_slot i (fast_grass_update_wind b noise num_pixels num_samples wind_vx wind_vz decay_amt) =
      wind_slot i (wind_pixel noise num_samples (encode_wind wind_vx) (encode_wind wind_vz)
        decay_amt i b) := by
  obtain ⟨k, rfl⟩ := Int.eq_ofNat_of_zero_le h0
  exact forLoop_slot _ (wind_slot k) k num_pixels.toNat b (by omega)
    (fun j t hj => wind_pixel_frame _ _ _ _ _ _ _ _ (by omega))
    (fun t ht => wind_pixel_local _ _ _ _ _ _ _ _ ht)

/-! ## The particle kernel -/

theorem forLoop_three {σ : Type} (body : Int → σ → σ) (s : σ) :
    forLoop body 3 s = body 2 (body 1 (body 0 s)) := rfl

theorem wrap_rotation_other (ind3 j k : Int) (rotations : Int → CFloat) (h : k ≠ ind3 + j) :
    wrap_rotation ind3 j rotations k = rotations k := by
  simp only [wrap_rotation]
  split_ifs <;> simp [store, h]

theorem wrap_rotation_same (ind3 j : Int) (rotations : Int → CFloat) :
    wrap_rotation ind3 j rotations (ind3 + j) = wrap_angle (rotations (ind3 + j)) := by
  simp only [wrap_rotation, wrap_angle]
  split_ifs <;> simp [store]

/-- The three passes of the inner loop wrap each component of the particle once. -/
theorem wrap_loop_component (ind3 j : Int) (r : Int → CFloat) (h0 : 0 ≤ j) (h2 : j ≤ 2) :
    forLoop (wrap_rotation ind3) 3 r (ind3 + j) = wrap_angle (r (ind3 + j)) := by
  rw [forLoop_three]
  have hj : j = 0 ∨ j = 1 ∨ j = 2 := by omega
  rcases hj with rfl | rfl | rfl
  · rw [wrap_rotation_other _ _ _ _ (by omega), wrap_rotation_other _ _ _ _ (by omega),
      wrap_rotation_same]
  · rw [wrap_rotation_other _ _ _ _ (by omega), wrap_rotation_same,
      wrap_rotation_other _ _ _ _ (by omega)]
  · rw [wrap_rotation_same, wrap_rotation_other _ _ _ _ (by omega),
      wrap_rotation_other _ _ _ _ (by omega)]

theorem wrap_loop_other (ind3 k : Int) (r : Int → CFloat)
    (h0 : k ≠ ind3 + 0) (h1 : k ≠ ind3 + 1) (h2 : k ≠ ind3 + 2) :
    forLoop (wrap_rotation ind3) 3 r k = r k := by
  rw [forLoop_three, wrap_rotation_other _ _ _ _ h2, wrap_rotation_other _ _ _ _ h1,
    wrap_rotation_other _ _ _ _ h0]

section ParticleBody

variable (offsets noise : Int → CFloat) (num_noise_samples : Int)
  (norm_x norm_z dt_factor player_x player_y player_z : CFloat) (i : Int) (b : ParticleBuffers)

theorem update_particle_cursor :
    (update_particle offsets noise num_noise_samples norm_x norm_z dt_factor player_x player_y
      player_z i b).noise_indices i = sample_index (b.noise_indices i) num_noise_samples := by
  simp [update_particle, store]

theorem update_particle_alpha :
    (update_particle offsets noise num_noise_samples norm_x norm_z dt_factor player_x player_y
      player_z i b).alphas i =
    (let a := alpha_step (b.alphas i) (b.alpha_signs i)
        (noise (sample_index (b.noise_indices i) num_noise_samples)) dt_factor
     if CFloat.lt a (.fin 0) then .fin 0 else if CFloat.gt a (.fin 1) then .fin 1 else a) := by
  simp only [update_particle, store_same]
  split_ifs <;> simp only [store_same]

theorem update_particle_alpha_sign :
    (update_particle offsets noise num_noise_samples norm_x norm_z dt_factor player_x player_y
      player_z i b).alpha_signs i =
    (let a := alpha_step (b.alphas i) (b.alpha_signs i)
        (noise (sample_index (b.noise_indices i) num_noise_samples)) dt_factor
     if CFloat.lt a (.fin 0) then .fin 1
     else if CFloat.gt a (.fin 1) then .fin (-1) else b.alpha_signs i) := by
  simp only [update_particle, store_same]
  split_ifs <;> simp only [store_same]

theorem update_particle_translation (c : Int) (h0 : 0 ≤ c) (h2 : c ≤ 2) :
    (update_particle offsets noise num_noise_samples norm_x norm_z dt_factor player_x player_y
      player_z i b).translations (i * 3 + c) =
    (let s := noise (sample_index (b.noise_indices i) num_noise_samples)
     let a := alpha_step (b.alphas i) (b.alpha_signs i) s dt_factor
     if CFloat.lt a (.fin 0) then
       CFloat.add (offsets (i * 3 + c))
         (if c = 0 then player_x else if c = 1 then player_y else player_z)
     else if c = 0 then drift_xz (b.translations (i * 3 + c)) s norm_x dt_factor
     else if c = 1 then drift_y (b.translations (i * 3 + c)) s dt_factor
     else drift_xz (b.translations (i * 3 + c)) s norm_z dt_factor) := by
  have hc : c = 0 ∨ c = 1 ∨ c = 2 := by omega
  simp only [update_particle, store_same]
  rcases hc with rfl | rfl | rfl <;> simp [store] <;> split_ifs <;> simp [store]

theorem update_particle_rotation (c : Int) (h0 : 0 ≤ c) (h2 : c ≤ 2) :
    (update_particle offsets noise num_noise_samples norm_x norm_z dt_factor player_x player_y
      player_z i b).rotations (i * 3 + c) =
    (let s := noise (sample_index (b.noise_indices i) num_noise_samples)
     wrap_angle
       (if c = 0 then CFloat.add (b.rotations (i * 3 + c)) (rotation_increment_x s dt_factor)
        else if c = 1 then
          CFloat.add (b.rotations (i * 3 + c)) (rotation_increment_y s dt_factor)
        else b.rotations (i * 3 + c))) := by
  have hc : c = 0 ∨ c = 1 ∨ c = 2 := by omega
  simp only [update_particle]
  rw [wrap_loop_component _ _ _ h0 h2]
  rcases hc with rfl | rfl | rfl <;> simp [store]

end ParticleBody

section ParticleLoop

variable (offsets noise : Int → CFloat) (num_noise_samples : Int)
  (norm_x norm_z dt_factor player_x player_y player_z : CFloat)

theorem update_particle_frame (i j : Int) (b : ParticleBuffers) (h : j ≠ i) :
    particle_slot i (update_particle offsets noise num_noise_samples norm_x norm_z dt_factor
      player_x player_y player_z j b) = particle_slot i b := by
  have hr : ∀ c : Int, 0 ≤ c → c ≤ 2 → ∀ r : Int → CFloat,
      forLoop (wrap_rotation (j * 3)) 3 r (i * 3 + c) = r (i * 3 + c) := by
    intro c hc0 hc2 r
    exact wrap_loop_other _ _ _ (by omega) (by omega) (by omega)
  have hi : ∀ {α : Type} (r : Int → α) (v : α), store r j v i = r i := by
    intro α r v
    exact store_other _ _ _ _ h.symm
  simp only [particle_slot, update_particle, Prod.mk.injEq]
  refine ⟨?_, ⟨?_, ?_⟩, ⟨?_, ?_, ?_⟩, ?_, ?_, ?_⟩
  · exact hi _ _
  · split_ifs <;> simp only [hi]
  · split_ifs <;> simp only [hi]
  · split_ifs <;> simp (disch := omega) only [store_other]
  · split_ifs <;> simp (disch := omega) only [store_other]
  · split_ifs <;> simp (disch := omega) only [store_other]
  · rw [hr 0 (by norm_num) (by norm_num)]
    simp (disch := omega) only [store_other]
  · rw [hr 1 (by norm_num) (by norm_num)]
    simp (disch := omega) only [store_other]
  · rw [hr 2 (by norm_num) (by norm_num)]
    simp (disch := omega) only [store_other]

theorem update_particle_local (i : Int) (b t : ParticleBuffers)
    (h : particle_slot i t = particle_slot i b) :
    particle_slot i (update_particle offsets noise num_noise_samples norm_x norm_z dt_factor
      player_x player_y player_z i t) =
    particle_slot i (update_particle offsets noise num_noise_samples norm_x norm_z dt_factor
      player_x player_y player_z i b) := by
  simp only [particle_slot, Prod.mk.injEq] at h
  obtain ⟨h0, ⟨h1, h2⟩, ⟨h3, h4, h5⟩, h6, h7, h8⟩ := h
  have z0 : (0 : Int) ≤ 0 := le_refl 0
  have z1 : (0 : Int) ≤ 1 := by norm_num
  have z2 : (0 : Int) ≤ 2 := by norm_num
  have z3 : (1 : Int) ≤ 2 := by norm_num
  have z4 : (2 : Int) ≤ 2 := le_refl 2
  simp only [particle_slot, update_particle_cursor, update_particle_alpha,
    update_particle_alpha_sign,
    update_particle_translation offsets noise num_noise_samples norm_x norm_z dt_factor
      player_x player_y player_z i _ 0 z0 z2,
    update_particle_translation offsets noise num_noise_samples norm_x norm_z dt_factor
      player_x player_y player_z i _ 1 z1 z3,
    update_particle_translation offsets noise num_noise_samples norm_x norm_z dt_factor
      player_x player_y player_z i _ 2 z2 z4,
    update_particle_rotation offsets noise num_noise_samples norm_x norm_z dt_factor
      player_x player_y player_z i _ 0 z0 z2,
    update_particle_rotation offsets noise num_noise_samples norm_x norm_z dt_factor
      player_x player_y player_z i _ 1 z1 z3,
    update_particle_rotation offsets noise num_noise_samples norm_x norm_z dt_factor
      player_x player_y player_z i _ 2 z2 z4, h0, h1, h2, h3, h4, h5, h6, h7, h8]

end ParticleLoop

/-- After `update`, the slot of every particle below `num_particles` is what the loop body
makes of the buffers as they were before the call. -/
theorem update_slot (b : ParticleBuffers) (offsets : Int → CFloat) (num_particles : Int)
    (noise : Int → CFloat) (num_noise_samples : Int) (norm_x norm_z dt_factor : CFloat)
    (player_position : Int → CFloat) (i : Int) (h0 : 0 ≤ i) (h1 : i < num_particles) :
    particle_slot i (update b offsets num_particles noise num_noise_samples norm_x norm_z
      dt_factor player_position) =
    particle_slot i (update_particle offsets noise num_noise_samples norm_x norm_z dt_factor
      (player_position 0) (player_position 1) (player_position 2) i b) := by
  obtain ⟨k, rfl⟩ := Int.eq_ofNat_of_zero_le h0
  exact forLoop_slot _ (particle_slot k) k num_particles.toNat b (by omega)
    (fun j t hj => update_particle_frame _ _ _ _ _ _ _ _ _ _ _ _ (by omega))
    (fun t ht => update_particle_local _ _ _ _ _ _ _ _ _ _ _ _ ht)

/-! ## Cursors -/

/-- C4. With `num_samples > 0`, `fast_grass_update_wind` stores in `noise_indices[i]` the
remainder of the old cursor plus one by `num_samples` and writes to `wind_texture[4i+3]` the
noise sample at that new cursor, for every pixel `i < num_pixels`; `update` stores the cursor of
every particle `i < num_particles` by the same rule and the sample at the new cursor is the one
that enters the rotation about x and the alpha of the particle. -/
theorem cursor_advance_and_sampling (num_samples : Int) (_ : 0 < num_samples) (i : Int)
    (h0 : 0 ≤ i) :
    (∀ (b : WindBuffers) (noise : Int → Nat) (num_pixels : Int)
        (wind_vx wind_vz decay_amt : CFloat), i < num_pixels →
      (fast_grass_update_wind b noise num_pixels num_samples wind_vx wind_vz
          decay_amt).noise_indices i = Int.tmod (b.noise_indices i + 1) num_samples ∧
      (fast_grass_update_wind b noise num_pixels num_samples wind_vx wind_vz
          decay_amt).wind_texture (4 * i + 3) =
        noise (Int.tmod (b.noise_indices i + 1) num_samples)) ∧
    (∀ (b : ParticleBuffers) (offsets : Int → CFloat) (num_particles : Int)
        (noise : Int → CFloat) (norm_x norm_z dt_factor : CFloat)
        (player_position : Int → CFloat), i < num_particles →
      (update b offsets num_particles noise num_samples norm_x norm_z dt_factor
          player_position).noise_indices i = Int.tmod (b.noise_indices i + 1) num_samples ∧
      (update b offsets num_particles noise num_samples norm_x norm_z dt_factor
          player_position).rotations (3 * i) =
        wrap_angle (CFloat.add (b.rotations (3 * i))
          (rotation_increment_x (noise (Int.tmod (b.noise_indices i + 1) num_samples))
            dt_factor)) ∧
      (update b offsets num_particles noise num_samples norm_x norm_z dt_factor
          player_position).alphas i =
        LILIUM_CLAMP
          (alpha_step (b.alphas i) (b.alpha_signs i)
            (noise (Int.tmod (b.noise_indices i + 1) num_samples)) dt_factor)
          (.fin 0) (.fin 1)) := by
  constructor
  · intro b noise num_pixels wind_vx wind_vz decay_amt h1
    have hs := fast_grass_update_wind_slot b noise num_pixels num_samples wind_vx wind_vz
      decay_amt i h0 h1
    simp only [wind_slot, Prod.mk.injEq] at hs
    obtain ⟨hc, ⟨-, -, -, hw⟩, -⟩ := hs
    have e : 4 * i + 3 = i * 4 + 3 := by ring
    rw [hc, e, hw]
    simp [wind_pixel, store, sample_index]
  · intro b offsets num_particles noise norm_x norm_z dt_factor player_position h1
    have hs := update_slot b offsets num_particles noise num_samples norm_x norm_z dt_factor
      player_position i h0 h1
    simp only [particle_slot, Prod.mk.injEq] at hs
    obtain ⟨hc, ⟨ha, -⟩, -, hr, -⟩ := hs
    have e : 3 * i = i * 3 + 0 := by ring
    rw [hc, e, hr, ha, update_particle_cursor, update_particle_alpha,
      update_particle_rotation _ _ _ _ _ _ _ _ _ _ _ 0 (le_refl 0) (by norm_num)]
    simp [sample_index, LILIUM_CLAMP]

/-- C4 at pixel `0` with two noise samples, sample `k` being `k + 7`: the byte written is the
sample at cursor `1`. -/
theorem cursor_advance_and_sampling_witness :
    (fast_grass_update_wind ⟨fun _ => 0, fun _ => 0, fun _ => 0⟩ (fun k => (k + 7).toNat) 1 2
        (.fin 0) (.fin 0) (.fin 2)).wind_texture (4 * 0 + 3) = 8 :=
  ((cursor_advance_and_sampling 2 (by decide) 0 (le_refl 0)).1
    ⟨fun _ => 0, fun _ => 0, fun _ => 0⟩ (fun k => (k + 7).toNat) 1 (.fin 0) (.fin 0) (.fin 2)
    (by decide)).2

/-- For a cursor that is not negative the remainder of C is the mathematical one. -/
theorem sample_index_of_nonneg (cursor num_samples : Int) (hc : 0 ≤ cursor)
    (hn : 0 < num_samples) : sample_index cursor num_samples = (cursor + 1) % num_samples := by
  unfold sample_index
  exact Int.tmod_eq_emod (by omega) (by omega)

/-- The cursor of a pixel below `num_pixels` after one call of `fast_grass_update_wind`. -/
theorem fast_grass_update_wind_cursor (b : WindBuffers) (noise : Int → Nat)
    (num_pixels num_samples : Int) (wind_vx wind_vz decay_amt : CFloat) (i : Int)
    (h0 : 0 ≤ i) (h1 : i < num_pixels) :
    (fast_grass_update_wind b noise num_pixels num_samples wind_vx wind_vz
      decay_amt).noise_indices i = sample_index (b.noise_indices i) num_samples := by
  have hs := fast_grass_update_wind_slot b noise num_pixels num_samples wind_vx wind_vz
    decay_amt i h0 h1
  simp only [wind_slot, Prod.mk.injEq] at hs
  rw [hs.1]
  simp [wind_pixel, store]

/-- A cursor that starts in `[0, num_samples)` is, after `k` calls, the start plus `k` modulo
`num_samples`. -/
theorem wind_calls_cursor (noise : Nat → Int → Nat) (num_pixels num_samples : Int)
    (wind_vx wind_vz decay_amt : Nat → CFloat) (b : WindBuffers) (i : Int)
    (hn : 0 < num_samples) (h0 : 0 ≤ i) (h1 : i < num_pixels)
    (hc0 : 0 ≤ b.noise_indices i) (hc1 : b.noise_indices i < num_samples) (k : Nat) :
    (wind_calls noise num_pixels num_samples wind_vx wind_vz decay_amt k b).noise_indices i =
      (b.noise_indices i + k) % num_samples := by
  induction k with
  | zero => simp [wind_calls, Int.emod_eq_of_lt hc0 hc1]
  | succ k ih =>
    simp only [wind_calls]
    rw [fast_grass_update_wind_cursor _ _ _ _ _ _ _ i h0 h1, ih,
      sample_index_of_nonneg _ _ (Int.emod_nonneg _ (by omega)) hn, Int.emod_add_emod]
    push_cast
    rw [add_assoc]

/-- C5 as stated fails: one pixel, two samples, and a cursor that starts at `5`.  After two
calls the cursor is `1`. -/
theorem cyclic_cursor_counterexample :
    (wind_calls (fun _ _ => 0) 1 2 (fun _ => .fin 0) (fun _ => .fin 0) (fun _ => .fin 2)
        (Int.toNat 2) ⟨fun _ => 0, fun _ => 0, fun _ => 5⟩).noise_indices 0 ≠
      (⟨fun _ => 0, fun _ => 0, fun _ => 5⟩ : WindBuffers).noise_indices 0 := by
  decide!

/-- C5, amended. For `num_samples > 1`, if every cursor below `num_pixels` starts in
`[0, num_samples)`, then after `num_samples` successive calls of `fast_grass_update_wind` with
that `num_pixels` and `num_samples` (whatever the other arguments of each call are) every
cursor below `num_pixels` has the value it had before the first call. -/
theorem cyclic_cursor (noise : Nat → Int → Nat) (num_pixels num_samples : Int)
    (wind_vx wind_vz decay_amt : Nat → CFloat) (b : WindBuffers) (hn : 1 < num_samples)
    (hrange : ∀ i : Int, 0 ≤ i → i < num_pixels →
      0 ≤ b.noise_indices i ∧ b.noise_indices i < num_samples)
    (i : Int) (h0 : 0 ≤ i) (h1 : i < num_pixels) :
    (wind_calls noise num_pixels num_samples wind_vx wind_vz decay_amt num_samples.toNat
      b).noise_indices i = b.noise_indices i := by
  obtain ⟨hc0, hc1⟩ := hrange i h0 h1
  rw [wind_calls_cursor noise num_pixels num_samples wind_vx wind_vz decay_amt b i (by omega)
    h0 h1 hc0 hc1, Int.toNat_of_nonneg (by omega), Int.add_emod_self,
    Int.emod_eq_of_lt hc0 hc1]

/-- C5, amended, on three pixels with cursors `0, 1, 2` and three samples. -/
theorem cyclic_cursor_witness :
    (wind_calls (fun _ _ => 0) 3 3 (fun _ => .fin 0) (fun _ => .fin 0) (fun _ => .fin 2)
        (Int.toNat 3) ⟨fun _ => 0, fun _ => 0, fun k => k % 3⟩).noise_indices 2 =
      (⟨fun _ => 0, fun _ => 0, fun k => k % 3⟩ : WindBuffers).noise_indices 2 :=
  cyclic_cursor (fun _ _ => 0) 3 3 (fun _ => .fin 0) (fun _ => .fin 0) (fun _ => .fin 2)
    ⟨fun _ => 0, fun _ => 0, fun k => k % 3⟩ (by decide)
    (fun i _ _ => ⟨Int.emod_nonneg i (by decide), Int.emod_lt_of_pos i (by decide)⟩) 2
    (by decide) (by decide)

/-! ## Decay -/

namespace CFloat

end CFloat

section UpdateFields

variable (b : ParticleBuffers) (offsets : Int → CFloat) (num_particles : Int)
  (noise : Int → CFloat) (num_noise_samples : Int) (norm_x norm_z dt_factor : CFloat)
  (player_position : Int → CFloat) (i : Int) (h0 : 0 ≤ i) (h1 : i < num_particles)

include h0 h1

theorem update_cursor :
    (update b offsets num_particles noise num_noise_samples norm_x norm_z dt_factor
      player_position).noise_indices i = sample_index (b.noise_indices i) num_noise_samples := by
  have hs := update_slot b offsets num_particles noise num_noise_samples norm_x norm_z dt_factor
    player_position i h0 h1
  simp only [particle_slot, Prod.mk.injEq] at hs
  rw [hs.1, update_particle_cursor]

theorem update_alpha :
    (update b offsets num_particles noise num_noise_samples norm_x norm_z dt_factor
      player_position).alphas i =
    LILIUM_CLAMP
      (alpha_step (b.alphas i) (b.alpha_signs i)
        (noise (sample_index (b.noise_indices i) num_noise_samples)) dt_factor)
      (.fin 0) (.fin 1) := by
  have hs := update_slot b offsets num_particles noise num_noise_samples norm_x norm_z dt_factor
    player_position i h0 h1
  simp only [particle_slot, Prod.mk.injEq] at hs
  rw [hs.2.1.1, update_particle_alpha]
  rfl

end UpdateFields

/-! ## Alpha -/

/-- The clamp of a value that is not NaN lies in `[0, 1]`. -/
theorem clamp_unit_range (x : CFloat) (hx : x ≠ .nan) :
    CFloat.le (.fin 0) (LILIUM_CLAMP x (.fin 0) (.fin 1)) = true ∧
      CFloat.le (LILIUM_CLAMP x (.fin 0) (.fin 1)) (.fin 1) = true := by
  cases x with
  | nan => exact absurd rfl hx
  | ninf => decide!
  | pinf => decide!
  | fin q =>
    simp only [LILIUM_CLAMP, CFloat.gt, CFloat.lt, decide_eq_true_eq]
    split_ifs with h1 h2
    · simp [CFloat.le]
    · simp [CFloat.le]
    · simp only [CFloat.le, decide_eq_true_eq]
      exact ⟨not_lt.mp h1, not_lt.mp h2⟩

/-- C8 as stated fails: a particle whose alpha is NaN keeps a NaN alpha, which is not in
`[0, 1]`. -/
theorem alpha_invariant_counterexample :
    ¬ (CFloat.le (.fin 0)
        ((update ⟨fun _ => .fin 0, fun _ => .fin 0, fun _ => .nan, fun _ => .fin 1, fun _ => 0⟩
          (fun _ => .fin 0) 1 (fun _ => .fin (1 / 2)) 4 (.fin 1) (.fin 1) (.fin 1)
          (fun _ => .fin 0)).alphas 0) = true ∧
      CFloat.le
        ((update ⟨fun _ => .fin 0, fun _ => .fin 0, fun _ => .nan, fun _ => .fin 1, fun _ => 0⟩
          (fun _ => .fin 0) 1 (fun _ => .fin (1 / 2)) 4 (.fin 1) (.fin 1) (.fin 1)
          (fun _ => .fin 0)).alphas 0) (.fin 1) = true) := by
  decide!

/-- C8, amended. For every particle `i < num_particles` whose stepped alpha
`alphas[i] + alpha_signs[i] * 0.01 * noise_sample * dt_factor` is not NaN, after `update`
`alphas[i]` lies in `[0, 1]`. -/
theorem alpha_invariant (b : ParticleBuffers) (offsets : Int → CFloat) (num_particles : Int)
    (noise : Int → CFloat) (num_noise_samples : Int) (norm_x norm_z dt_factor : CFloat)
    (player_position : Int → CFloat) (i : Int) (h0 : 0 ≤ i) (h1 : i < num_particles)
    (hnan : alpha_step (b.alphas i) (b.alpha_signs i)
      (noise (Int.tmod (b.noise_indices i + 1) num_noise_samples)) dt_factor ≠ .nan) :
    CFloat.le (.fin 0)
      ((update b offsets num_particles noise num_noise_samples norm_x norm_z dt_factor
        player_position).alphas i) = true ∧
    CFloat.le
      ((update b offsets num_particles noise num_noise_samples norm_x norm_z dt_factor
        player_position).alphas i) (.fin 1) = true := by
  rw [update_alpha b offsets num_particles noise num_noise_samples norm_x norm_z dt_factor
    player_position i h0 h1]
  exact clamp_unit_range _ hnan

/-- C8, amended, on a particle whose alpha overshoots `1`. -/
theorem alpha_invariant_witness :
    CFloat.le (.fin 0)
      ((update ⟨fun _ => .fin 0, fun _ => .fin 0, fun _ => .fin 1, fun _ => .fin 1, fun _ => 0⟩
        (fun _ => .fin 0) 1 (fun _ => .fin (1 / 2)) 4 (.fin 1) (.fin 1) (.fin 1)
        (fun _ => .fin 0)).alphas 0) = true ∧
    CFloat.le
      ((update ⟨fun _ => .fin 0, fun _ => .fin 0, fun _ => .fin 1, fun _ => .fin 1, fun _ => 0⟩
        (fun _ => .fin 0) 1 (fun _ => .fin (1 / 2)) 4 (.fin 1) (.fin 1) (.fin 1)
        (fun _ => .fin 0)).alphas 0) (.fin 1) = true :=
  alpha_invariant
    ⟨fun _ => .fin 0, fun _ => .fin 0, fun _ => .fin 1, fun _ => .fin 1, fun _ => 0⟩
    (fun _ => .fin 0) 1 (fun _ => .fin (1 / 2)) 4 (.fin 1) (.fin 1) (.fin 1) (fun _ => .fin 0) 0
    (le_refl 0) (by decide) (by decide!)

/-! ## Rotations -/

/-- An iteration of the wind loop at pixel `j` changes the wind texture only at `4j`, `4j+2`
and `4j+3`. -/
theorem wind_pixel_wind_other (noise : Int → Nat) (num_samples : Int) (vx vz : Nat)
    (decay_amt : CFloat) (j k : Int) (b : WindBuffers)
    (h0 : k ≠ j * 4) (h2 : k ≠ j * 4 + 2) (h3 : k ≠ j * 4 + 3) :
    (wind_pixel noise num_samples vx vz decay_amt j b).wind_texture k = b.wind_texture k := by
  simp only [wind_pixel]
  rw [store_other _ _ _ _ h3, store_other _ _ _ _ h2, store_other _ _ _ _ h0]

/-- An iteration of the wind loop at pixel `j` changes the velocity texture only at `4j+3`. -/
theorem wind_pixel_velocity_other (noise : Int → Nat) (num_samples : Int) (vx vz : Nat)
    (decay_amt : CFloat) (j k : Int) (b : WindBuffers) (h3 : k ≠ j * 4 + 3) :
    (wind_pixel noise num_samples vx vz decay_amt j b).velocity_texture k =
      b.velocity_texture k := by
  simp only [wind_pixel]
  rw [store_other _ _ _ _ h3]

/-- An iteration of the wind loop at pixel `j` changes the cursor buffer only at `j`. -/
theorem wind_pixel_cursor_other (noise : Int → Nat) (num_samples : Int) (vx vz : Nat)
    (decay_amt : CFloat) (j k : Int) (b : WindBuffers) (h : k ≠ j) :
    (wind_pixel noise num_samples vx vz decay_amt j b).noise_indices k = b.noise_indices k := by
  simp only [wind_pixel]
  rw [store_other _ _ _ _ h]

/-- C12. One call of `fast_grass_update_wind` leaves, for every pixel `i < num_pixels`, the
bytes `wind_texture[4i+1]`, `velocity_texture[4i]`, `velocity_texture[4i+1]` and
`velocity_texture[4i+2]` as they were; it leaves every byte of both textures at an offset
`>= 4 * num_pixels` and every cursor `noise_indices[k]` with `k >= num_pixels` as they were.
The noise samples are an argument the kernel only reads (`const uint8_t*`): they are not among
the buffers it returns. -/
theorem wind_frame (b : WindBuffers) (noise : Int → Nat) (num_pixels num_samples : Int)
    (wind_vx wind_vz decay_amt : CFloat) :
    (∀ i : Int, 0 ≤ i → i < num_pixels →
      (fast_grass_update_wind b noise num_pixels num_samples wind_vx wind_vz
        decay_amt).wind_texture (4 * i + 1) = b.wind_texture (4 * i + 1) ∧
      (fast_grass_update_wind b noise num_pixels num_samples wind_vx wind_vz
        decay_amt).velocity_texture (4 * i) = b.velocity_texture (4 * i) ∧
      (fast_grass_update_wind b noise num_pixels num_samples wind_vx wind_vz
        decay_amt).velocity_texture (4 * i + 1) = b.velocity_texture (4 * i + 1) ∧
      (fast_grass_update_wind b noise num_pixels num_samples wind_vx wind_vz
        decay_amt).velocity_texture (4 * i + 2) = b.velocity_texture (4 * i + 2)) ∧
    (∀ k : Int, 4 * num_pixels ≤ k →
      (fast_grass_update_wind b noise num_pixels num_samples wind_vx wind_vz
        decay_amt).wind_texture k = b.wind_texture k ∧
      (fast_grass_update_wind b noise num_pixels num_samples wind_vx wind_vz
        decay_amt).velocity_texture k = b.velocity_texture k) ∧
    (∀ k : Int, num_pixels ≤ k →
      (fast_grass_update_wind b noise num_pixels num_samples wind_vx wind_vz
        decay_amt).noise_indices k = b.noise_indices k) := by
  refine ⟨?_, ?_, ?_⟩
  · intro i h0 h1
    have hs := fast_grass_update_wind_slot b noise num_pixels num_samples wind_vx wind_vz
      decay_amt i h0 h1
    simp only [wind_slot, Prod.mk.injEq] at hs
    obtain ⟨-, ⟨-, hw1, -, -⟩, hv0, hv1, hv2, -⟩ := hs
    have e0 : 4 * i = i * 4 := by ring
    have e1 : 4 * i + 1 = i * 4 + 1 := by ring
    have e2 : 4 * i + 2 = i * 4 + 2 := by ring
    rw [e1, e2, e0, hw1, hv0, hv1, hv2]
    refine ⟨wind_pixel_wind_other _ _ _ _ _ _ _ _ (by omega) (by omega) (by omega),
      wind_pixel_velocity_other _ _ _ _ _ _ _ _ (by omega),
      wind_pixel_velocity_other _ _ _ _ _ _ _ _ (by omega),
      wind_pixel_velocity_other _ _ _ _ _ _ _ _ (by omega)⟩
  · intro k hk
    constructor
    · exact forLoop_frame _ (fun s : WindBuffers => s.wind_texture k) _ b
        (fun j t hj => wind_pixel_wind_other _ _ _ _ _ _ _ _ (by omega) (by omega) (by omega))
    · exact forLoop_frame _ (fun s : WindBuffers => s.velocity_texture k) _ b
        (fun j t hj => wind_pixel_velocity_other _ _ _ _ _ _ _ _ (by omega))
  · intro k hk
    exact forLoop_frame _ (fun s : WindBuffers => s.noise_indices k) _ b
      (fun j t hj => wind_pixel_cursor_other _ _ _ _ _ _ _ _ (by omega))

/-! ## Cursors move and stay in range -/

/-- With more than one sample the advanced cursor is never the cursor it came from. -/
theorem sample_index_ne (cursor num_samples : Int) (hn : 1 < num_samples) :
    sample_index cursor num_samples ≠ cursor := by
  intro h
  unfold sample_index at h
  have hd := Int.tdiv_add_tmod (cursor + 1) num_samples
  rw [h] at hd
  have h1 : num_samples * (cursor + 1).tdiv num_samples = 1 := by linarith
  have h2 : num_samples ∣ 1 := Dvd.intro _ h1
  have h3 := Int.eq_one_of_dvd_one (by omega) h2
  omega

/-- A cursor that is not negative advances into `[0, num_samples)`. -/
theorem sample_index_range (cursor num_samples : Int) (hc : 0 ≤ cursor)
    (hn : 0 < num_samples) :
    0 ≤ sample_index cursor num_samples ∧ sample_index cursor num_samples < num_samples := by
  rw [sample_index_of_nonneg cursor num_samples hc hn]
  exact ⟨Int.emod_nonneg _ (by omega), Int.emod_lt_of_pos _ hn⟩

/-- C12 on two pixels: byte 8 of the wind texture, the first past the two pixels, is kept. -/
theorem wind_frame_witness :
    (fast_grass_update_wind ⟨fun k => k.toNat, fun _ => 200, fun _ => 0⟩ (fun _ => 9) 2 3
      (.fin 0) (.fin 0) (.fin 2)).wind_texture 8 = 8 :=
  ((wind_frame ⟨fun k => k.toNat, fun _ => 200, fun _ => 0⟩ (fun _ => 9) 2 3 (.fin 0) (.fin 0)
    (.fin 2)).2.1 8 (by decide)).1

/-- C13. With `num_samples > 1`, one call of `fast_grass_update_wind` leaves every cursor below
`num_pixels` different from what it was, and one call of `update` does the same for every
cursor below `num_particles`; so with at least one pixel (particle) the buffers after a call are
never the buffers before it, in particular a second call with the same arguments does not end
in the state the first call ended in. -/
theorem state_evolves (num_samples : Int) (hn : 1 < num_samples) :
    (∀ (b : WindBuffers) (noise : Int → Nat) (num_pixels : Int)
        (wind_vx wind_vz decay_amt : CFloat),
      (∀ i : Int, 0 ≤ i → i < num_pixels →
        (fast_grass_update_wind b noise num_pixels num_samples wind_vx wind_vz
          decay_amt).noise_indices i ≠ b.noise_indices i) ∧
      (1 ≤ num_pixels →
        fast_grass_update_wind
          (fast_grass_update_wind b noise num_pixels num_samples wind_vx wind_vz decay_amt)
          noise num_pixels num_samples wind_vx wind_vz decay_amt ≠
        fast_grass_update_wind b noise num_pixels num_samples wind_vx wind_vz decay_amt)) ∧
    (∀ (b : ParticleBuffers) (offsets : Int → CFloat) (num_particles : Int)
        (noise : Int → CFloat) (norm_x norm_z dt_factor : CFloat)
        (player_position : Int → CFloat),
      (∀ i : Int, 0 ≤ i → i < num_particles →
        (update b offsets num_particles noise num_samples norm_x norm_z dt_factor
          player_position).noise_indices i ≠ b.noise_indices i) ∧
      (1 ≤ num_particles →
        update
          (update b offsets num_particles noise num_samples norm_x norm_z dt_factor
            player_position)
          offsets num_particles noise num_samples norm_x norm_z dt_factor player_position ≠
        update b offsets num_particles noise num_samples norm_x norm_z dt_factor
          player_position)) := by
  have hw : ∀ (b : WindBuffers) (noise : Int → Nat) (num_pixels : Int)
      (wind_vx wind_vz decay_amt : CFloat) (i : Int), 0 ≤ i → i < num_pixels →
      (fast_grass_update_wind b noise num_pixels num_samples wind_vx wind_vz
        decay_amt).noise_indices i ≠ b.noise_indices i := by
    intro b noise num_pixels wind_vx wind_vz decay_amt i h0 h1
    rw [fast_grass_update_wind_cursor b noise num_pixels num_samples wind_vx wind_vz decay_amt
      i h0 h1]
    exact sample_index_ne _ _ hn
  have hu : ∀ (b : ParticleBuffers) (offsets : Int → CFloat) (num_particles : Int)
      (noise : Int → CFloat) (norm_x norm_z dt_factor : CFloat)
      (player_position : Int → CFloat) (i : Int), 0 ≤ i → i < num_particles →
      (update b offsets num_particles noise num_samples norm_x norm_z dt_factor
        player_position).noise_indices i ≠ b.noise_indices i := by
    intro b offsets num_particles noise norm_x norm_z dt_factor player_position i h0 h1
    rw [update_cursor b offsets num_particles noise num_samples norm_x norm_z dt_factor
      player_position i h0 h1]
    exact sample_index_ne _ _ hn
  constructor
  · intro b noise num_pixels wind_vx wind_vz decay_amt
    refine ⟨hw b noise num_pixels wind_vx wind_vz decay_amt, ?_⟩
    intro h1 heq
    exact hw _ noise num_pixels wind_vx wind_vz decay_amt 0 (le_refl 0) (by omega)
      (congrArg (fun s : WindBuffers => s.noise_indices 0) heq)
  · intro b offsets num_particles noise norm_x norm_z dt_factor player_position
    refine ⟨hu b offsets num_particles noise norm_x norm_z dt_factor player_position, ?_⟩
    intro h1 heq
    exact hu _ offsets num_particles noise norm_x norm_z dt_factor player_position 0
      (le_refl 0) (by omega) (congrArg (fun s : ParticleBuffers => s.noise_indices 0) heq)

/-- C13 on one pixel with two samples: the cursor `0` does not stay `0`. -/
theorem state_evolves_witness :
    (fast_grass_update_wind ⟨fun _ => 0, fun _ => 0, fun _ => 0⟩ (fun _ => 9) 1 2 (.fin 0)
      (.fin 0) (.fin 2)).noise_indices 0 ≠
    (⟨fun _ => 0, fun _ => 0, fun _ => 0⟩ : WindBuffers).noise_indices 0 :=
  ((state_evolves 2 (by decide)).1 ⟨fun _ => 0, fun _ => 0, fun _ => 0⟩ (fun _ => 9) 1 (.fin 0)
    (.fin 0) (.fin 2)).1 0 (le_refl 0) (by decide)

/-- C20. With `num_samples > 0`, if the cursors below `num_pixels` (below `num_particles`) lie
in `[0, num_samples)` before the call, then after `fast_grass_update_wind` (after `update`)
they lie in `[0, num_samples)` again, and the index at which the call reads the noise buffer
for that pixel (particle), which is the new cursor, lies in `[0, num_samples)`. -/
theorem cursor_range_invariant (num_samples : Int) (hn : 0 < num_samples) :
    (∀ (b : WindBuffers) (noise : Int → Nat) (num_pixels : Int)
        (wind_vx wind_vz decay_amt : CFloat),
      (∀ i : Int, 0 ≤ i → i < num_pixels →
        0 ≤ b.noise_indices i ∧ b.noise_indices i < num_samples) →
      ∀ i : Int, 0 ≤ i → i < num_pixels →
        (0 ≤ (fast_grass_update_wind b noise num_pixels num_samples wind_vx wind_vz
            decay_amt).noise_indices i ∧
          (fast_grass_update_wind b noise num_pixels num_samples wind_vx wind_vz
            decay_amt).noise_indices i < num_samples) ∧
        (0 ≤ Int.tmod (b.noise_indices i + 1) num_samples ∧
          Int.tmod (b.noise_indices i + 1) num_samples < num_samples) ∧
        (fast_grass_update_wind b noise num_pixels num_samples wind_vx wind_vz
            decay_amt).wind_texture (4 * i + 3) =
          noise (Int.tmod (b.noise_indices i + 1) num_samples)) ∧
    (∀ (b : ParticleBuffers) (offsets : Int → CFloat) (num_particles : Int)
        (noise : Int → CFloat) (norm_x norm_z dt_factor : CFloat)
        (player_position : Int → CFloat),
      (∀ i : Int, 0 ≤ i → i < num_particles →
        0 ≤ b.noise_indices i ∧ b.noise_indices i < num_samples) →
      ∀ i : Int, 0 ≤ i → i < num_particles →
        (0 ≤ (update b offsets num_particles noise num_samples norm_x norm_z dt_factor
            player_position).noise_indices i ∧
          (update b offsets num_particles noise num_samples norm_x norm_z dt_factor
            player_position).noise_indices i < num_samples) ∧
        (0 ≤ Int.tmod (b.noise_indices i + 1) num_samples ∧
          Int.tmod (b.noise_indices i + 1) num_samples < num_samples)) := by
  constructor
  · intro b noise num_pixels wind_vx wind_vz decay_amt hr i h0 h1
    have hc := sample_index_range (b.noise_indices i) num_samples (hr i h0 h1).1 hn
    have hs := fast_grass_update_wind_slot b noise num_pixels num_samples wind_vx wind_vz
      decay_amt i h0 h1
    simp only [wind_slot, Prod.mk.injEq] at hs
    obtain ⟨-, ⟨-, -, -, hw⟩, -⟩ := hs
    have e : 4 * i + 3 = i * 4 + 3 := by ring
    rw [fast_grass_update_wind_cursor b noise num_pixels num_samples wind_vx wind_vz decay_amt
      i h0 h1, e, hw]
    refine ⟨hc, hc, ?_⟩
    simp only [wind_pixel, store_same]
    rfl
  · intro b offsets num_particles noise norm_x norm_z dt_factor player_position hr i h0 h1
    have hc := sample_index_range (b.noise_indices i) num_samples (hr i h0 h1).1 hn
    rw [update_cursor b offsets num_particles noise num_samples norm_x norm_z dt_factor
      player_position i h0 h1]
    exact ⟨hc, hc⟩

/-- C20 on one pixel with three samples and a zeroed cursor buffer. -/
theorem cursor_range_invariant_witness :
    0 ≤ (fast_grass_update_wind ⟨fun _ => 0, fun _ => 0, fun _ => 0⟩ (fun _ => 9) 1 3 (.fin 0)
        (.fin 0) (.fin 2)).noise_indices 0 ∧
    (fast_grass_update_wind ⟨fun _ => 0, fun _ => 0, fun _ => 0⟩ (fun _ => 9) 1 3 (.fin 0)
        (.fin 0) (.fin 2)).noise_indices 0 < 3 :=
  ((cursor_range_invariant 3 (by decide)).1 ⟨fun _ => 0, fun _ => 0, fun _ => 0⟩ (fun _ => 9) 1
    (.fin 0) (.fin 0) (.fin 2) (fun _ _ _ => ⟨le_refl 0, by norm_num⟩) 0 (le_refl 0)
    (by decide)).1

/-! ## Drift and the third rotation component -/

theorem overwrites_paint_pixel (fp : Footprint) (texture_size i j : Int) :
    Overwrites (paint_pixel fp texture_size i j) := by
  intro k
  by_cases h3 : k = fp.texture_index texture_size i j + 3
  · exact Or.inr ⟨100, fun tex => by simp [paint_pixel, store, h3]⟩
  · by_cases h2 : k = fp.texture_index texture_size i j + 2
    · refine Or.inr ⟨CFloat.toUInt8 (CFloat.mul (fp.norm_z j) (.fin 255)), fun tex => ?_⟩
      simp only [paint_pixel]
      rw [store_other _ _ _ _ h3, h2, store_same]
      rfl
    · by_cases h0 : k = fp.texture_index texture_size i j
      · refine Or.inr ⟨CFloat.toUInt8 (CFloat.mul (fp.norm_x i) (.fin 255)), fun tex => ?_⟩
        simp only [paint_pixel]
        rw [store_other _ _ _ _ h3, store_other _ _ _ _ h2, h0, store_same]
        rfl
      · refine Or.inl (fun tex => ?_)
        simp only [paint_pixel]
        rw [store_other _ _ _ _ h3, store_other _ _ _ _ h2, store_other _ _ _ _ h0]

theorem overwrites_comp (p q : (Int → Nat) → Int → Nat) (hp : Overwrites p)
    (hq : Overwrites q) : Overwrites (fun tex => q (p tex)) := by
  intro k
  rcases hq k with hk | ⟨v, hv⟩
  · rcases hp k with hk' | ⟨v, hv⟩
    · exact Or.inl (fun tex => (hk (p tex)).trans (hk' tex))
    · exact Or.inr ⟨v, fun tex => (hk (p tex)).trans (hv tex)⟩
  · exact Or.inr ⟨v, fun tex => hv (p tex)⟩

theorem overwrites_forLoop (body : Int → (Int → Nat) → Int → Nat)
    (h : ∀ i, Overwrites (body i)) (n : Nat) : Overwrites (forLoop body n) := by
  induction n with
  | zero => exact fun k => Or.inl (fun tex => rfl)
  | succ n ih => exact overwrites_comp (forLoop body n) (body n) ih (h n)

theorem overwrites_paint_loop (fp : Footprint) (texture_size : Int) :
    Overwrites (paint_loop fp texture_size) :=
  overwrites_forLoop _
    (fun i => overwrites_forLoop _ (fun j => overwrites_paint_pixel fp texture_size i j) _) _

/-- A byte stored by the first transformer, whatever the texture, is still independent of the
texture after a second transformer that overwrites. -/
theorem written_comp (p q : (Int → Nat) → Int → Nat) (k : Int)
    (hp : ∃ v : Nat, ∀ tex, p tex k = v) (hq : Overwrites q) :
    ∃ v : Nat, ∀ tex, q (p tex) k = v := by
  obtain ⟨v, hv⟩ := hp
  rcases hq k with hk | ⟨w, hw⟩
  · exact ⟨v, fun tex => (hk (p tex)).trans (hv tex)⟩
  · exact ⟨w, fun tex => hw (p tex)⟩

/-- The three bytes an iteration stores do not depend on the texture. -/
theorem written_paint_pixel (fp : Footprint) (texture_size i j c : Int)
    (hc : c = 0 ∨ c = 2 ∨ c = 3) :
    ∃ v : Nat, ∀ tex,
      paint_pixel fp texture_size i j tex (fp.texture_index texture_size i j + c) = v := by
  rcases hc with rfl | rfl | rfl
  · refine ⟨CFloat.toUInt8 (CFloat.mul (fp.norm_x i) (.fin 255)), fun tex => ?_⟩
    simp only [paint_pixel, add_zero]
    rw [store_other _ _ _ _ (by omega), store_other _ _ _ _ (by omega), store_same]
    rfl
  · refine ⟨CFloat.toUInt8 (CFloat.mul (fp.norm_z j) (.fin 255)), fun tex => ?_⟩
    simp only [paint_pixel]
    rw [store_other _ _ _ _ (by omega), store_same]
    rfl
  · exact ⟨100, fun tex => by simp [paint_pixel, store]⟩

theorem written_paint_row (fp : Footprint) (texture_size i c : Int) (n j : Nat)
    (hc : c = 0 ∨ c = 2 ∨ c = 3) (hj : j < n) :
    ∃ v : Nat, ∀ tex,
      forLoop (fun j tex => paint_pixel fp texture_size i j tex) n tex
        (fp.texture_index texture_size i j + c) = v := by
  induction n with
  | zero => omega
  | succ n ih =>
    rcases Nat.lt_succ_iff_lt_or_eq.mp hj with h | h
    · exact written_comp (forLoop (fun j tex => paint_pixel fp texture_size i j tex) n)
        (paint_pixel fp texture_size i n) _ (ih h) (overwrites_paint_pixel fp texture_size i n)
    · subst h
      obtain ⟨v, hv⟩ := written_paint_pixel fp texture_size i j c hc
      exact ⟨v, fun tex => hv _⟩

theorem written_paint_loop (fp : Footprint) (texture_size c : Int) (i j : Nat)
    (hc : c = 0 ∨ c = 2 ∨ c = 3)
    (hi : (i : Int) < fp.num_pixels_x) (hj : (j : Int) < fp.num_pixels_z) :
    ∃ v : Nat, ∀ tex,
      paint_loop fp texture_size tex (fp.texture_index texture_size i j + c) = v := by
  have hi' : i < fp.num_pixels_x.toNat := by omega
  have hj' : j < fp.num_pixels_z.toNat := by omega
  unfold paint_loop
  generalize fp.num_pixels_x.toNat = nx at hi'
  induction nx with
  | zero => omega
  | succ n ih =>
    rcases Nat.lt_succ_iff_lt_or_eq.mp hi' with h | h
    · exact written_comp
        (forLoop (fun i tex => forLoop (fun j tex => paint_pixel fp texture_size i j tex)
          fp.num_pixels_z.toNat tex) n)
        (forLoop (fun j tex => paint_pixel fp texture_size n j tex) fp.num_pixels_z.toNat) _
        (ih h) (overwrites_forLoop _ (fun j => overwrites_paint_pixel fp texture_size n j) _)
    · subst h
      obtain ⟨v, hv⟩ := written_paint_row fp texture_size i c _ j hc hj'
      exact ⟨v, fun tex => hv _⟩

/-- C14. For fixed scalar arguments, the bytes `fast_grass_update_velocity_displacement` leaves
in channels 0, 2 and 3 of a painted pixel are the same whatever the velocity texture held
before, and painting twice with the same arguments gives the texture that painting once
gives. -/
theorem painter_overwrites (texture_size : Int)
    (player_x player_y player_z player_width player_depth scale_x scale_z max_dim
      blade_height : CFloat) :
    (∀ (tex₁ tex₂ : Int → Nat) (i j c : Int),
      0 ≤ i →
      i < (footprint texture_size player_x player_y player_z player_width player_depth scale_x
        scale_z max_dim blade_height).num_pixels_x →
      0 ≤ j →
      j < (footprint texture_size player_x player_y player_z player_width player_depth scale_x
        scale_z max_dim blade_height).num_pixels_z →
      c = 0 ∨ c = 2 ∨ c = 3 →
      fast_grass_update_velocity_displacement tex₁ texture_size player_x player_y player_z
          player_width player_depth scale_x scale_z max_dim blade_height
          ((footprint texture_size player_x player_y player_z player_width player_depth scale_x
            scale_z max_dim blade_height).texture_index texture_size i j + c) =
        fast_grass_update_velocity_displacement tex₂ texture_size player_x player_y player_z
          player_width player_depth scale_x scale_z max_dim blade_height
          ((footprint texture_size player_x player_y player_z player_width player_depth scale_x
            scale_z max_dim blade_height).texture_index texture_size i j + c)) ∧
    (∀ tex : Int → Nat,
      fast_grass_update_velocity_displacement
          (fast_grass_update_velocity_displacement tex texture_size player_x player_y player_z
            player_width player_depth scale_x scale_z max_dim blade_height)
          texture_size player_x player_y player_z player_width player_depth scale_x scale_z
          max_dim blade_height =
        fast_grass_update_velocity_displacement tex texture_size player_x player_y player_z
          player_width player_depth scale_x scale_z max_dim blade_height) := by
  constructor
  · intro tex₁ tex₂ i j c hi0 hi1 hj0 hj1 hc
    obtain ⟨a, rfl⟩ := Int.eq_ofNat_of_zero_le hi0
    obtain ⟨d, rfl⟩ := Int.eq_ofNat_of_zero_le hj0
    obtain ⟨v, hv⟩ := written_paint_loop _ texture_size c a d hc hi1 hj1
    unfold fast_grass_update_velocity_displacement
    rw [hv tex₁, hv tex₂]
  · intro tex
    unfold fast_grass_update_velocity_displacement
    funext k
    rcases overwrites_paint_loop (footprint texture_size player_x player_y player_z
      player_width player_depth scale_x scale_z max_dim blade_height) texture_size k with
      hk | ⟨v, hv⟩
    · rw [hk]
    · rw [hv, hv]

/-- C14 on a 4 x 4 texture: painting twice over a texture of sevens is painting once. -/
theorem painter_overwrites_witness :
    fast_grass_update_velocity_displacement
        (fast_grass_update_velocity_displacement (fun _ => 7) 4 (.fin 2) (.fin 0) (.fin 2)
          (.fin 2) (.fin 2) (.fin 1) (.fin 1) (.fin 4) (.fin 1))
        4 (.fin 2) (.fin 0) (.fin 2) (.fin 2) (.fin 2) (.fin 1) (.fin 1) (.fin 4) (.fin 1) =
      fast_grass_update_velocity_displacement (fun _ => 7) 4 (.fin 2) (.fin 0) (.fin 2)
        (.fin 2) (.fin 2) (.fin 1) (.fin 1) (.fin 4) (.fin 1) :=
  (painter_overwrites 4 (.fin 2) (.fin 0) (.fin 2) (.fin 2) (.fin 2) (.fin 1) (.fin 1) (.fin 4)
    (.fin 1)).2 (fun _ => 7)

/-! ## The geometry of one axis of the footprint -/

namespace CFloat

end CFloat

section FootprintAxes

variable (texture_size : Int)
  (player_x player_y player_z player_width player_depth scale_x scale_z max_dim
    blade_height : CFloat)

end FootprintAxes

/-! ## The divisor of the painter -/

end Lilium
